import Mathlib

/-!
# Verification of the ai-shopstream catalog / inventory layer

Shallow embedding of the pure logic of `src/app/page.tsx` and the
outfit-recommendation route (`src/app/layout.tsx`): the mock catalog filter,
the storefront catalog client with its fallback cascade, the bulk catalog
loader, the in-memory inventory index (rebuild, text search, stats), the
cart subtotal, the answer heuristic, the translator and the outfit
recommendation request/response handling.

Strings model JavaScript strings; prices and ratings are exact rationals
(the reference values are finite decimals); JavaScript `Map`s are modelled
as insertion-ordered association lists with `Map.set` update-in-place
semantics.
-/

namespace Shopstream

/-- JS `String.prototype.toLowerCase`, per-character (ASCII-relevant). -/
def lowerStr (s : String) : String := ⟨s.data.map Char.toLower⟩

/-- `startsWithL sub s` holds when `sub` is an initial run of `s`. -/
def startsWithL : List Char → List Char → Bool
  | [], _ => true
  | _ :: _, [] => false
  | a :: as, b :: bs => a = b && startsWithL as bs

/-- `hasSub sub s`: `sub` occurs contiguously inside `s`. -/
def hasSub (sub : List Char) : List Char → Bool
  | [] => startsWithL sub []
  | c :: rest => startsWithL sub (c :: rest) || hasSub sub rest

/-- JS `s.includes(sub)`: contiguous substring test. -/
def containsStr (s sub : String) : Bool := hasSub sub.data s.data

/-- JS `String.prototype.trim`: drop leading and trailing whitespace. -/
def trimStr (s : String) : String :=
  ⟨((s.data.dropWhile Char.isWhitespace).reverse.dropWhile Char.isWhitespace).reverse⟩

/-- The product shape used by the page-level logic (`MOCK_PRODUCTS`, the
storefront client, the answer heuristic and the cart).  `rating` is
optional: the heuristic defaults a missing rating with `?? 0`. -/
structure Product where
  id : String
  title : String
  price : ℚ
  image : String
  tags : List String
  rating : Option ℚ
  features : List String
  colors : List String
  inventory : ℤ
  variantId : Option String := none
deriving DecidableEq

/-- `MOCK_PRODUCTS[0]` from `src/app/page.tsx`. -/
def mockP1 : Product :=
  { id := "gid://shopify/Product/1", title := "StrideRunner Sneaker", price := 89.99,
    image := "https://placehold.co/480x600?text=StrideRunner",
    tags := ["sneakers", "running", "breathable"], rating := some 4.6,
    features := ["Mesh upper", "Cushion midsole", "Rubber outsole"],
    colors := ["Black", "White", "Volt"], inventory := 27 }

/-- `MOCK_PRODUCTS[1]` from `src/app/page.tsx`. -/
def mockP2 : Product :=
  { id := "gid://shopify/Product/2", title := "CloudLite Trainer", price := 99.0,
    image := "https://placehold.co/480x600?text=CloudLite",
    tags := ["sneakers", "training", "lightweight"], rating := some 4.4,
    features := ["Knit upper", "Responsive foam", "Heel loop"],
    colors := ["Blue", "Grey"], inventory := 11 }

/-- `MOCK_PRODUCTS[2]` from `src/app/page.tsx`. -/
def mockP3 : Product :=
  { id := "gid://shopify/Product/3", title := "UrbanFlex High-Top", price := 79.5,
    image := "https://placehold.co/480x600?text=UrbanFlex",
    tags := ["sneakers", "streetwear"], rating := some 4.1,
    features := ["Canvas", "Padded collar", "Grippy sole"],
    colors := ["Black", "Red"], inventory := 42 }

/-- The fixed mock catalog `MOCK_PRODUCTS`. -/
def MOCK_PRODUCTS : List Product := [mockP1, mockP2, mockP3]

/-- `mockFetchProducts` from `src/app/page.tsx`: lowercase the query; an
empty (falsy) query returns the whole catalog; otherwise filter by
title/tag substring containment. -/
def mockFetchProducts (query : String) : List Product :=
  let q := lowerStr query
  if q = "" then MOCK_PRODUCTS
  else MOCK_PRODUCTS.filter fun p =>
    containsStr (lowerStr p.title) q || p.tags.any fun t => containsStr (lowerStr t) q

/-- `translate` from `src/app/page.tsx`. -/
def translate (text : String) (lang : String) : String :=
  if lang = "fr" then "FR: " ++ text
  else if lang = "es" then "ES: " ++ text
  else if lang = "hi" then "HI: " ++ text
  else text

/-- `Object.entries(cart)`: a cart is an insertion-ordered list of
(product id, quantity) entries. -/
abbrev Cart := List (String × ℕ)

/-- The lookup `products.find(...) || MOCK_PRODUCTS.find(...)` used by
`computeSubtotal`: the given list first, the static mock catalog second. -/
def resolveId (products : List Product) (id : String) : Option Product :=
  (products.find? fun x => x.id = id).orElse
    fun _ => MOCK_PRODUCTS.find? fun x => x.id = id

/-- `computeSubtotal` from `src/app/page.tsx`: reduce over the cart
entries, resolving each id with `resolveId`; an unresolved id contributes 0. -/
def computeSubtotal (products : List Product) (cart : Cart) : ℚ :=
  cart.foldl (fun sum e =>
    match resolveId products e.1 with
    | some p => sum + p.price * e.2
    | none => sum + 0) 0

/-- Claim-side line total of one cart entry: price × quantity of the
resolved product, 0 when the id resolves nowhere. -/
def lineAmount (products : List Product) (e : String × ℕ) : ℚ :=
  match resolveId products e.1 with
  | some p => p.price * e.2
  | none => 0

/-- Effective rating used by the heuristic comparator: `p.rating ?? 0`. -/
def ratingOf (p : Product) : ℚ := p.rating.getD 0

/-- Insert `p` into a descending-by-rating list, before the first element
whose rating does not exceed `p`'s (so elements that appeared earlier in
the input stay first among equal ratings, as with JS's stable sort). -/
def insertByRating (p : Product) : List Product → List Product
  | [] => [p]
  | q :: qs => if ratingOf q ≤ ratingOf p then p :: q :: qs else q :: insertByRating p qs

/-- `.sort((a, b) => (b.rating ?? 0) - (a.rating ?? 0))`: stable sort by
descending effective rating. -/
def sortByRatingDesc : List Product → List Product
  | [] => []
  | p :: ps => insertByRating p (sortByRatingDesc ps)

/-- The selection step of `mockLLMAnswer`:
`products.filter((p) => p.price <= 100).sort(...)[0]`. -/
def bestPick (products : List Product) : Option Product :=
  (sortByRatingDesc (products.filter fun p => decide (p.price ≤ 100))).head?

/-- Integer part of a nonnegative rational. -/
def ratIntPart (q : ℚ) : ℕ := (q.num / (q.den : ℤ)).toNat

/-- Fractional digits of `r ∈ [0, 1)`, most significant first, stopping at
zero remainder or at the fuel bound (17, the JS double shortest-roundtrip
cap); the reference prices are short finite decimals. -/
def fracDigitsAux : ℕ → ℚ → List ℕ
  | 0, _ => []
  | fuel + 1, r =>
    if r = 0 then []
    else
      let r10 := r * 10
      let d := ratIntPart r10
      d :: fracDigitsAux fuel (r10 - d)

/-- JS number-to-string interpolation for the finite decimals used here:
`89.99` renders as `"89.99"`, `99` as `"99"`. -/
def decimalString (q : ℚ) : String :=
  let sign := if q < 0 then "-" else ""
  let a : ℚ := |q|
  let ip := ratIntPart a
  let ds := fracDigitsAux 17 (a - ip)
  sign ++ toString ip ++
    (if ds.isEmpty then "" else "." ++ ⟨ds.map fun d => Char.ofNat (48 + d)⟩)

/-- The sentence `mockLLMAnswer` renders for a selected product. -/
def answerSentence (b : Product) : String :=
  "Best under budget: " ++ b.title ++ " ($" ++ decimalString b.price ++ "). Features: " ++
    String.intercalate ", " (b.features.take 2) ++ "."

/-- The fixed sentence `mockLLMAnswer` renders when nothing qualifies. -/
def nothingFoundSentence : String :=
  "I couldn\x27t find an item under that budget in stock."

/-- `mockLLMAnswer` from `src/app/page.tsx`: filter to prices ≤ 100, take
the head of the rating-descending stable sort, render the sentence and
pass it through `translate`. -/
def mockLLMAnswer (prompt : String) (products : List Product) (lang : String) : String :=
  let best := bestPick products
  let base := match best with
    | some b => answerSentence b
    | none => nothingFoundSentence
  translate base lang

/-- A variant node as returned by the storefront GraphQL queries:
`{ id, price { amount } }`.  The `Number(...)` parse of the decimal
`amount` string is modelled as the rational it denotes. -/
structure VariantNode where
  id : String
  amount : Option ℚ
deriving DecidableEq

/-- A product node of the single-page storefront query in
`fetchStorefrontProducts`: id, title, tags, totalInventory, image urls,
variant nodes and metafield (key, value) pairs, each possibly absent. -/
structure StorefrontNode where
  id : String
  title : String
  tags : Option (List String)
  totalInventory : Option ℤ
  imageUrls : List String
  variants : List VariantNode
  metafields : List (String × String)
deriving DecidableEq

/-- The placeholder image used when a node has no (truthy) image url. -/
def placeholderImage : String := "https://placehold.co/480x600?text=No+Image"

/-- `n.images?.edges?.[0]?.node?.url || placeholder`: first url if present
and non-empty, else the placeholder. -/
def firstImageOr (urls : List String) : String :=
  match urls.head? with
  | some u => if u = "" then placeholderImage else u
  | none => placeholderImage

/-- The per-edge normalization in `fetchStorefrontProducts`: price and
inventory default to 0, image to the placeholder, tags to the empty list,
rating hard-defaulted to 4.5, features from the first 3 metafields. -/
def mapStorefrontNode (n : StorefrontNode) : Product :=
  { id := n.id
    title := n.title
    price := ((n.variants.head?).bind VariantNode.amount).getD 0
    image := firstImageOr n.imageUrls
    tags := n.tags.getD []
    rating := some 4.5
    features := (n.metafields.take 3).map fun m => m.1 ++ ": " ++ m.2
    colors := ["Default"]
    inventory := n.totalInventory.getD 0
    variantId := (n.variants.head?).map VariantNode.id }

/-- Outcome of the single `/api/shopify` request inside the `try` block:
a thrown network error, a non-ok HTTP status (which makes the client throw
after logging), a JSON parse failure, or a parsed body whose product edges
are `edges` (an absent `data.products.edges` path is `ok []`). -/
inductive FetchOutcome
  | netError
  | httpError
  | parseError
  | ok (edges : List StorefrontNode)
deriving DecidableEq

/-- `fetchStorefrontProducts` from `src/app/page.tsx`: missing credentials
delegate to `mockFetchProducts`; every caught failure falls back to
`mockFetchProducts`; a success maps the edges and still falls back when
the mapped list is empty. -/
def fetchStorefrontProducts (query shopDomain storefrontToken : String)
    (outcome : FetchOutcome) : List Product :=
  if shopDomain = "" ∨ storefrontToken = "" then mockFetchProducts query
  else
    match outcome with
    | .ok edges =>
        let mapped := edges.map mapStorefrontNode
        if mapped.isEmpty then mockFetchProducts query else mapped
    | _ => mockFetchProducts query

/-- A product node of the bulk query in `fetchAllShopifyProducts` (the
bulk query requests no metafields). -/
structure BulkNode where
  id : String
  title : String
  tags : Option (List String)
  totalInventory : Option ℤ
  imageUrls : List String
  variants : List VariantNode
deriving DecidableEq

/-- A stored variant record (`variants` entry of `ProductData`). -/
structure VariantData where
  id : String
  title : String
  price : ℚ
  inventory : ℤ
  sku : Option String
  barcode : Option String
deriving DecidableEq

/-- A stored image record (`images` entry of `ProductData`). -/
structure ImageData where
  id : String
  url : String
  altText : Option String
deriving DecidableEq

/-- The `ProductData` interface of `src/app/page.tsx` (metafields are
(key, value, type) triples). -/
structure ProductData where
  id : String
  title : String
  price : ℚ
  image : String
  tags : List String
  rating : ℚ
  features : List String
  colors : List String
  inventory : ℤ
  variantId : Option String
  description : Option String
  vendor : Option String
  productType : Option String
  createdAt : Option String
  updatedAt : Option String
  variants : List VariantData
  images : List ImageData
  metafields : List (String × String × String)
deriving DecidableEq

/-- The per-edge normalization in `fetchAllShopifyProducts`. -/
def bulkNodeToProduct (n : BulkNode) : ProductData :=
  { id := n.id
    title := n.title
    price := ((n.variants.head?).bind VariantNode.amount).getD 0
    image := firstImageOr n.imageUrls
    tags := n.tags.getD []
    rating := 4.5
    features := []
    colors := ["Default"]
    inventory := n.totalInventory.getD 0
    variantId := (n.variants.head?).map VariantNode.id
    description := some ""
    vendor := some ""
    productType := some ""
    createdAt := some ""
    updatedAt := some ""
    variants := n.variants.map fun v =>
      { id := v.id, title := "", price := v.amount.getD 0, inventory := 0,
        sku := some "", barcode := some "" }
    images := n.imageUrls.map fun u => { id := "", url := u, altText := some "" }
    metafields := [] }

/-- Outcome of one `/api/shopify-bulk` page request: a failure (non-ok
status or thrown error) or a parsed page carrying its edges and
`pageInfo.hasNextPage` (the cursor is threaded implicitly by consuming the
outcomes in request order). -/
inductive PageOutcome
  | fail
  | page (edges : List BulkNode) (hasNextPage : Bool)
deriving DecidableEq

/-- The `while (hasNextPage)` loop body of `fetchAllShopifyProducts`:
`none` models an exception escaping to the `catch` (a failed request, or a
server that stops answering while more pages are expected). -/
def runPages : List PageOutcome → List ProductData → Option (List ProductData)
  | [], _ => none
  | .fail :: _, _ => none
  | .page edges hasNextPage :: rest, acc =>
      let acc' := acc ++ edges.map bulkNodeToProduct
      if hasNextPage then runPages rest acc' else some acc'

/-- `fetchAllShopifyProducts` from `src/app/page.tsx`: missing credentials
return `[]`; the pagination loop accumulates every page; the `catch`
handler returns `[]`. -/
def fetchAllShopifyProducts (shopDomain storefrontToken : String)
    (pages : List PageOutcome) : List ProductData :=
  if shopDomain = "" ∨ storefrontToken = "" then []
  else
    match runPages pages [] with
    | some products => products
    | none => []

/-- JS `Map.set` on an insertion-ordered association list: an existing key
keeps its position and gets the new value, a new key is appended. -/
def alSet {β : Type} : List (String × β) → String → β → List (String × β)
  | [], k, v => [(k, v)]
  | (k', v') :: rest, k, v =>
      if k' = k then (k, v) :: rest else (k', v') :: alSet rest k v

/-- JS `Map.get`: value of the first entry with the given key. -/
def alGet {β : Type} : List (String × β) → String → Option β
  | [], _ => none
  | (k', v') :: rest, k => if k' = k then some v' else alGet rest k

/-- The `InventoryStore` record of `src/app/page.tsx`; the three `Map`s
are insertion-ordered association lists, `lastUpdated` an abstract tick. -/
structure InventoryStore where
  products : List (String × ProductData)
  categories : List (String × List String)
  tags : List (String × List String)
  lastUpdated : Option ℕ
  isLoading : Bool
  totalCount : ℕ
deriving DecidableEq

/-- The initial (and cleared) inventory store. -/
def emptyStore : InventoryStore :=
  { products := [], categories := [], tags := [], lastUpdated := none,
    isLoading := false, totalCount := 0 }

/-- The `products.forEach` body of `storeInventoryData`: store the product
under its id, append its id to its category bucket when `productType` is
truthy (present and non-empty), and append its id to each tag bucket. -/
def insertProduct (st : InventoryStore) (p : ProductData) : InventoryStore :=
  let products' := alSet st.products p.id p
  let categories' :=
    match p.productType with
    | some c =>
        if c = "" then st.categories
        else alSet st.categories c (((alGet st.categories c).getD []) ++ [p.id])
    | none => st.categories
  let tags' := p.tags.foldl
    (fun m t => alSet m t (((alGet m t).getD []) ++ [p.id])) st.tags
  { st with products := products', categories := categories', tags := tags' }

/-- `storeInventoryData` from `src/app/page.tsx`: clear the three maps,
repopulate them from the list, then set `totalCount`, `lastUpdated` and
`isLoading`.  Since every field is overwritten, the rebuilt store does not
depend on the store being replaced; `now` stands for `new Date()`. -/
def storeInventoryData (products : List ProductData) (now : ℕ) : InventoryStore :=
  let st := products.foldl insertProduct emptyStore
  { st with totalCount := products.length, lastUpdated := some now, isLoading := false }

/-- The record returned by `getInventoryStats`. -/
structure InventoryStats where
  totalProducts : ℕ
  categories : ℕ
  tags : ℕ
  lastUpdated : Option ℕ
  isLoading : Bool
  cacheSize : ℕ
deriving DecidableEq

/-- `getInventoryStats` from `src/app/page.tsx`; `Map.size` is the entry
count of the association list (keys are unique by construction). -/
def getInventoryStats (st : InventoryStore) : InventoryStats :=
  { totalProducts := st.totalCount
    categories := st.categories.length
    tags := st.tags.length
    lastUpdated := st.lastUpdated
    isLoading := st.isLoading
    cacheSize := st.products.length }

/-- `inventoryStore.products.values()` in iteration (insertion) order. -/
def storeValues (st : InventoryStore) : List ProductData :=
  st.products.map Prod.snd

/-- Optional-chained lowercase containment:
`field?.toLowerCase().includes(q)` is false when the field is absent. -/
def optContains (field : Option String) (q : String) : Bool :=
  match field with
  | some s => containsStr (lowerStr s) q
  | none => false

/-- The match predicate of `searchStoredInventory` (title, tags,
description, vendor, product type). -/
def storedMatch (q : String) (p : ProductData) : Bool :=
  containsStr (lowerStr p.title) q
    || p.tags.any (fun t => containsStr (lowerStr t) q)
    || optContains p.description q
    || optContains p.vendor q
    || optContains p.productType q

/-- `searchStoredInventory` from `src/app/page.tsx`: a query that is blank
after `trim()` returns the first 12 stored values; otherwise collect the
matches in store order and slice to 12. -/
def searchStoredInventory (st : InventoryStore) (query : String) : List ProductData :=
  if trimStr query = "" then (storeValues st).take 12
  else
    let q := lowerStr query
    ((storeValues st).filter (storedMatch q)).take 12

/-- An incoming product of the outfit-recommendation request body
(arbitrary JSON, so `inventory` may be absent). -/
structure ReqProduct where
  id : String
  title : String
  price : ℚ
  tags : List String
  inventory : Option ℤ
  image : String
deriving DecidableEq

/-- JS `x || d` over an optional integer: absent, null and `0` are falsy. -/
def jsOrInt (x : Option ℤ) (d : ℤ) : ℤ :=
  match x with
  | none => d
  | some v => if v = 0 then d else v

/-- The condensed summary of the outfit-recommendations route
(`src/app/layout.tsx`): `inventory: p.inventory || 1` and
`inStock: (p.inventory || 0) >= 0`. -/
structure ProductSummary where
  id : String
  title : String
  price : ℚ
  tags : List String
  inventory : ℤ
  image : String
  inStock : Bool
deriving DecidableEq

/-- `products.map(p => ({...}))` of the outfit-recommendations route. -/
def productSummary (p : ReqProduct) : ProductSummary :=
  { id := p.id, title := p.title, price := p.price, tags := p.tags,
    inventory := jsOrInt p.inventory 1, image := p.image,
    inStock := decide (0 ≤ jsOrInt p.inventory 0) }

/-- An outfit item of the structured recommendation. -/
structure OutfitItem where
  id : String
  title : String
  price : ℚ
  reason : String
deriving DecidableEq

/-- An outfit of the structured recommendation. -/
structure Outfit where
  items : List OutfitItem
  totalCost : ℚ
  styleDescription : String
  occasion : String
deriving DecidableEq

/-- The structured recommendation shape expected from the completion
service. -/
structure Recommendations where
  primaryOutfit : Outfit
  alternativeOutfits : List Outfit
  stylingTips : List String
deriving DecidableEq

/-- The hard-coded fallback built when `JSON.parse(aiResponse)` throws. -/
def degradedRecommendations : Recommendations :=
  { primaryOutfit :=
      { items := [], totalCost := 0,
        styleDescription := "Unable to parse AI recommendations", occasion := "general" }
    alternativeOutfits := []
    stylingTips := ["Try different search terms for better recommendations"] }

/-- Outcome of the completion call: no content (which makes the route
throw into its catch), or a body that either parses into the structured
shape (`some`) or fails `JSON.parse` (`none`). -/
inductive CompletionOutcome
  | noContent
  | content (parsed : Option Recommendations)
deriving DecidableEq

/-- The route's HTTP result: a success payload or an error status. -/
inductive PostResponse
  | ok (query : String) (recommendations : Recommendations) (totalProducts : ℕ)
  | err (status : ℕ) (message : String)
deriving DecidableEq

/-- The `POST` handler of the outfit-recommendations route
(`src/app/layout.tsx`): guard on the API key, then on a truthy `query`
and an array `products`; a missing completion throws to the catch (500);
an unparsable completion body is replaced by `degradedRecommendations`
and still returned as a success. -/
def outfitPOST (hasApiKey : Bool) (query : Option String)
    (products : Option (List ReqProduct)) (outcome : CompletionOutcome) : PostResponse :=
  if !hasApiKey then .err 400 "OpenAI API key not configured"
  else
    match query, products with
    | some q, some ps =>
        if q = "" then .err 400 "Missing query or products data"
        else
          match outcome with
          | .noContent => .err 500 "Failed to generate outfit recommendations"
          | .content parsed => .ok q (parsed.getD degradedRecommendations) ps.length
    | _, _ => .err 400 "Missing query or products data"

/-! ## Helper lemmas -/

theorem startsWithL_iff (sub s : List Char) :
    startsWithL sub s = true ↔ ∃ r, s = sub ++ r := by
  induction sub generalizing s with
  | nil => simp [startsWithL]
  | cons a as ih =>
    cases s with
    | nil => simp [startsWithL]
    | cons b bs =>
      simp only [startsWithL, Bool.and_eq_true, decide_eq_true_eq, ih, List.cons_append,
        List.cons.injEq]
      constructor
      · rintro ⟨rfl, r, rfl⟩; exact ⟨r, rfl, rfl⟩
      · rintro ⟨r, rfl, rfl⟩; exact ⟨rfl, r, rfl⟩

theorem hasSub_iff (sub s : List Char) :
    hasSub sub s = true ↔ ∃ l r, s = l ++ sub ++ r := by
  induction s with
  | nil =>
    simp only [hasSub, startsWithL_iff]
    constructor
    · rintro ⟨r, h⟩
      exact ⟨[], r, by simpa using h⟩
    · rintro ⟨l, r, h⟩
      rcases List.append_eq_nil.mp (List.append_eq_nil.mp h.symm).1 with ⟨rfl, rfl⟩
      exact ⟨r, by simpa using h⟩
  | cons c cs ih =>
    simp only [hasSub, Bool.or_eq_true, startsWithL_iff, ih]
    constructor
    · rintro (⟨r, h⟩ | ⟨l, r, rfl⟩)
      · exact ⟨[], r, by simpa using h⟩
      · exact ⟨c :: l, r, rfl⟩
    · rintro ⟨l, r, h⟩
      cases l with
      | nil => exact Or.inl ⟨r, by simpa using h⟩
      | cons x xs =>
        simp only [List.cons_append, List.cons.injEq] at h
        exact Or.inr ⟨xs, r, h.2⟩

/-- Claim-side predicate: `needle` occurs inside `hay` case-insensitively. -/
def ciContains (hay needle : String) : Prop :=
  ∃ l r, (lowerStr hay).data = l ++ (lowerStr needle).data ++ r

theorem containsStr_lower_iff (hay needle : String) :
    containsStr (lowerStr hay) (lowerStr needle) = true ↔ ciContains hay needle :=
  hasSub_iff (lowerStr needle).data (lowerStr hay).data

instance (hay needle : String) : Decidable (ciContains hay needle) :=
  decidable_of_iff _ (containsStr_lower_iff hay needle)

theorem bool_eq_decide {b : Bool} {p : Prop} [Decidable p] (h : b = true ↔ p) : b = decide p := by
  cases b
  · have : ¬ p := fun hp => by simpa using h.mpr hp
    simp [this]
  · simp [h.mp rfl]

theorem lowerStr_eq_empty_iff (s : String) : lowerStr s = "" ↔ s = "" := by
  constructor
  · intro h
    have hdata : s.data.map Char.toLower = [] := congrArg String.data h
    have hnil : s.data = [] := List.map_eq_nil_iff.mp hdata
    cases s with
    | mk data => cases hnil; rfl
  · rintro rfl; rfl

theorem foldl_add_eq {α : Type} (f : α → ℚ) (l : List α) (a : ℚ) :
    l.foldl (fun s x => s + f x) a = a + (l.map f).sum := by
  induction l generalizing a with
  | nil => simp
  | cons x xs ih => simp [ih, add_assoc]

/-- Claim-side selection: the first element attaining the maximal
effective rating (the fold keeps its champion unless strictly beaten). -/
def firstMaxByRating : List Product → Option Product
  | [] => none
  | p :: ps => some (ps.foldl (fun b q => if ratingOf b < ratingOf q then q else b) p)

theorem firstMaxByRating_eq_none_iff (l : List Product) :
    firstMaxByRating l = none ↔ l = [] := by
  cases l <;> simp [firstMaxByRating]

theorem foldl_champion (ps : List Product) (p : Product) :
    ps.foldl (fun b q => if ratingOf b < ratingOf q then q else b) p =
      match firstMaxByRating ps with
      | none => p
      | some m => if ratingOf p < ratingOf m then m else p := by
  induction ps generalizing p with
  | nil => simp [firstMaxByRating]
  | cons q qs ih =>
    simp only [List.foldl_cons, firstMaxByRating]
    rw [ih]
    cases hm : firstMaxByRating qs with
    | none =>
      have hqs : qs = [] := (firstMaxByRating_eq_none_iff qs).mp hm
      subst hqs
      rfl
    | some m =>
      have hq := ih q
      rw [hm] at hq
      simp only [hq]
      by_cases h1 : ratingOf p < ratingOf q <;> by_cases h2 : ratingOf q < ratingOf m
      · simp [h1, h2, h1.trans h2]
      · simp [h1, h2]
      · simp [h1, h2]
      · simp [h1, h2, not_lt.mpr (le_trans (not_lt.mp h2) (not_lt.mp h1))]

theorem insertByRating_ne_nil (p : Product) (l : List Product) :
    insertByRating p l ≠ [] := by
  cases l with
  | nil => simp [insertByRating]
  | cons q qs =>
    simp only [insertByRating]
    split <;> simp

theorem sortByRatingDesc_eq_nil_iff (l : List Product) :
    sortByRatingDesc l = [] ↔ l = [] := by
  cases l with
  | nil => simp [sortByRatingDesc]
  | cons p ps => simp [sortByRatingDesc, insertByRating_ne_nil]

theorem head?_insertByRating (p : Product) (l : List Product) :
    (insertByRating p l).head? =
      some (match l.head? with
        | none => p
        | some q => if ratingOf q ≤ ratingOf p then p else q) := by
  cases l with
  | nil => rfl
  | cons q qs =>
    simp only [insertByRating, List.head?_cons]
    split <;> simp

theorem head?_sortByRatingDesc (l : List Product) :
    (sortByRatingDesc l).head? = firstMaxByRating l := by
  induction l with
  | nil => rfl
  | cons p ps ih =>
    rw [show firstMaxByRating (p :: ps) =
        some (ps.foldl (fun b q => if ratingOf b < ratingOf q then q else b) p) from rfl,
      foldl_champion,
      show sortByRatingDesc (p :: ps) = insertByRating p (sortByRatingDesc ps) from rfl,
      head?_insertByRating, ih]
    cases hm : firstMaxByRating ps with
    | none => rfl
    | some m =>
      simp only
      by_cases h : ratingOf p < ratingOf m
      · rw [if_neg (not_le.mpr h), if_pos h]
      · rw [if_pos (not_lt.mp h), if_neg h]

/-- `bestPick` is the head of the descending stable sort of the qualifying
products, which is the first product attaining the maximal rating. -/
theorem bestPick_eq_firstMax (products : List Product) :
    bestPick products =
      firstMaxByRating (products.filter fun p => decide (p.price ≤ 100)) := by
  simp [bestPick, head?_sortByRatingDesc]

theorem firstMaxByRating_mem_max (l : List Product) (m : Product)
    (h : firstMaxByRating l = some m) :
    ∃ l1 l2, l = l1 ++ m :: l2 ∧ (∀ q ∈ l1, ratingOf q < ratingOf m) ∧
      ∀ q ∈ l, ratingOf q ≤ ratingOf m := by
  induction l generalizing m with
  | nil => simp [firstMaxByRating] at h
  | cons p ps ih =>
    rw [firstMaxByRating, foldl_champion] at h
    cases hm : firstMaxByRating ps with
    | none =>
      have hps : ps = [] := (firstMaxByRating_eq_none_iff ps).mp hm
      subst hps
      rw [hm] at h
      simp only [Option.some.injEq] at h
      subst h
      exact ⟨[], [], rfl, by simp, by simp⟩
    | some m' =>
      rw [hm] at h
      simp only [Option.some.injEq] at h
      rcases ih m' hm with ⟨l1, l2, hsplit, hbefore, hall⟩
      by_cases hlt : ratingOf p < ratingOf m'
      · rw [if_pos hlt] at h
        subst h
        refine ⟨p :: l1, l2, by rw [hsplit]; rfl, ?_, ?_⟩
        · intro q hq
          rcases List.mem_cons.mp hq with rfl | hq
          · exact hlt
          · exact hbefore q hq
        · intro q hq
          rcases List.mem_cons.mp hq with rfl | hq
          · exact le_of_lt hlt
          · exact hall q hq
      · rw [if_neg hlt] at h
        subst h
        refine ⟨[], ps, rfl, by simp, ?_⟩
        intro q hq
        rcases List.mem_cons.mp hq with rfl | hq
        · exact le_refl _
        · exact le_trans (hall q hq) (not_lt.mp hlt)

/-- All product ids appearing in the entries of a secondary index. -/
def bucketIds (m : List (String × List String)) : List String :=
  (m.map Prod.snd).flatten

theorem mem_bucketIds_cons (k : String) (v : List String)
    (rest : List (String × List String)) (x : String) :
    x ∈ bucketIds ((k, v) :: rest) ↔ x ∈ v ∨ x ∈ bucketIds rest := by
  simp [bucketIds]

theorem alGet_cons_self {β : Type} (k : String) (v : β) (rest : List (String × β)) :
    alGet ((k, v) :: rest) k = some v := by
  simp [alGet]

theorem alGet_cons_ne {β : Type} {k' k : String} (v' : β) (rest : List (String × β))
    (h : k' ≠ k) : alGet ((k', v') :: rest) k = alGet rest k := by
  simp [alGet, h]

theorem alGet_isSome_iff {β : Type} (m : List (String × β)) (k : String) :
    (alGet m k).isSome ↔ k ∈ m.map Prod.fst := by
  induction m with
  | nil => simp [alGet]
  | cons e rest ih =>
    rcases e with ⟨k', v'⟩
    by_cases h : k' = k
    · subst h
      simp [alGet]
    · simp [alGet, h, ih, Ne.symm h]

theorem alSet_keys {β : Type} (m : List (String × β)) (k : String) (v : β) :
    (alSet m k v).map Prod.fst =
      if k ∈ m.map Prod.fst then m.map Prod.fst else m.map Prod.fst ++ [k] := by
  induction m with
  | nil => simp [alSet]
  | cons e rest ih =>
    rcases e with ⟨k', v'⟩
    by_cases h : k' = k
    · subst h
      simp [alSet]
    · simp only [alSet, if_neg h, List.map_cons, ih]
      by_cases hk : k ∈ rest.map Prod.fst
      · simp [hk, Ne.symm h]
      · simp [hk, Ne.symm h]

theorem mem_keys_alSet_of_mem {β : Type} (m : List (String × β)) (k a : String) (v : β)
    (h : a ∈ m.map Prod.fst) : a ∈ (alSet m k v).map Prod.fst := by
  rw [alSet_keys]
  split <;> simp [h]

theorem self_mem_keys_alSet {β : Type} (m : List (String × β)) (k : String) (v : β) :
    k ∈ (alSet m k v).map Prod.fst := by
  rw [alSet_keys]
  split <;> simp_all

theorem mem_bucketIds_alSet (m : List (String × List String)) (k : String)
    (v : List String) (x : String) (h : x ∈ bucketIds (alSet m k v)) :
    x ∈ bucketIds m ∨ x ∈ v := by
  induction m with
  | nil =>
    rw [show alSet [] k v = [(k, v)] from rfl, mem_bucketIds_cons] at h
    rcases h with h | h
    · exact Or.inr h
    · simp [bucketIds] at h
  | cons e rest ih =>
    rcases e with ⟨k', v'⟩
    by_cases hk : k' = k
    · subst hk
      rw [show alSet ((k', v') :: rest) k' v = (k', v) :: rest from by simp [alSet],
        mem_bucketIds_cons] at h
      rcases h with h | h
      · exact Or.inr h
      · exact Or.inl ((mem_bucketIds_cons _ _ _ _).mpr (Or.inr h))
    · rw [show alSet ((k', v') :: rest) k v = (k', v') :: alSet rest k v from by
        simp [alSet, hk], mem_bucketIds_cons] at h
      rcases h with h | h
      · exact Or.inl ((mem_bucketIds_cons _ _ _ _).mpr (Or.inl h))
      · rcases ih h with h' | h'
        · exact Or.inl ((mem_bucketIds_cons _ _ _ _).mpr (Or.inr h'))
        · exact Or.inr h'

theorem alGet_sub_bucketIds (m : List (String × List String)) (k : String)
    (x : String) (h : x ∈ (alGet m k).getD []) : x ∈ bucketIds m := by
  induction m with
  | nil => simp [alGet] at h
  | cons e rest ih =>
    rcases e with ⟨k', v'⟩
    rw [mem_bucketIds_cons]
    by_cases hk : k' = k
    · subst hk
      rw [alGet_cons_self] at h
      exact Or.inl h
    · rw [alGet_cons_ne v' rest hk] at h
      exact Or.inr (ih h)

/-- One `alSet m k ((alGet m k).getD [] ++ [i])` bucket push adds only `i`. -/
theorem bucket_push_adds_only (m : List (String × List String)) (k i x : String)
    (h : x ∈ bucketIds (alSet m k ((alGet m k).getD [] ++ [i]))) :
    x ∈ bucketIds m ∨ x = i := by
  rcases mem_bucketIds_alSet m k _ x h with h' | h'
  · exact Or.inl h'
  · rcases List.mem_append.mp h' with h'' | h''
    · exact Or.inl (alGet_sub_bucketIds m k x h'')
    · simp at h''
      exact Or.inr h''

theorem tags_fold_adds_only (tgs : List String) (m : List (String × List String))
    (i x : String)
    (h : x ∈ bucketIds (tgs.foldl (fun acc t => alSet acc t (((alGet acc t).getD []) ++ [i])) m)) :
    x ∈ bucketIds m ∨ x = i := by
  induction tgs generalizing m with
  | nil => exact Or.inl h
  | cons t ts ih =>
    rcases ih _ h with h' | h'
    · exact bucket_push_adds_only m t i x h'
    · exact Or.inr h'

theorem insertProduct_products (st : InventoryStore) (p : ProductData) :
    (insertProduct st p).products = alSet st.products p.id p := rfl

theorem insertProduct_categories (st : InventoryStore) (p : ProductData) :
    (insertProduct st p).categories =
      match p.productType with
      | some c =>
          if c = "" then st.categories
          else alSet st.categories c (((alGet st.categories c).getD []) ++ [p.id])
      | none => st.categories := rfl

theorem insertProduct_tags (st : InventoryStore) (p : ProductData) :
    (insertProduct st p).tags =
      p.tags.foldl (fun m t => alSet m t (((alGet m t).getD []) ++ [p.id])) st.tags := rfl

theorem insertProduct_cat_adds_only (st : InventoryStore) (p : ProductData) (x : String)
    (h : x ∈ bucketIds (insertProduct st p).categories) :
    x ∈ bucketIds st.categories ∨ x = p.id := by
  cases hpt : p.productType with
  | none =>
    simp only [insertProduct_categories, hpt] at h
    exact Or.inl h
  | some c =>
    simp only [insertProduct_categories, hpt] at h
    by_cases hc : c = ""
    · rw [if_pos hc] at h
      exact Or.inl h
    · rw [if_neg hc] at h
      exact bucket_push_adds_only st.categories c p.id x h

theorem insertProduct_tag_adds_only (st : InventoryStore) (p : ProductData) (x : String)
    (h : x ∈ bucketIds (insertProduct st p).tags) :
    x ∈ bucketIds st.tags ∨ x = p.id := by
  rw [insertProduct_tags] at h
  exact tags_fold_adds_only p.tags st.tags p.id x h

/-- The referential-integrity invariant of the inventory store: every id
in a secondary-index entry is a key of the primary store. -/
def indexIntegrity (st : InventoryStore) : Prop :=
  (∀ x ∈ bucketIds st.categories, x ∈ st.products.map Prod.fst) ∧
  (∀ x ∈ bucketIds st.tags, x ∈ st.products.map Prod.fst)

theorem insertProduct_integrity (st : InventoryStore) (p : ProductData)
    (h : indexIntegrity st) : indexIntegrity (insertProduct st p) := by
  have hkeys : ∀ a ∈ st.products.map Prod.fst,
      a ∈ (insertProduct st p).products.map Prod.fst := by
    intro a ha
    rw [insertProduct_products]
    exact mem_keys_alSet_of_mem st.products p.id a p ha
  have hself : p.id ∈ (insertProduct st p).products.map Prod.fst := by
    rw [insertProduct_products]
    exact self_mem_keys_alSet st.products p.id p
  constructor
  · intro x hx
    rcases insertProduct_cat_adds_only st p x hx with h' | rfl
    · exact hkeys x (h.1 x h')
    · exact hself
  · intro x hx
    rcases insertProduct_tag_adds_only st p x hx with h' | rfl
    · exact hkeys x (h.2 x h')
    · exact hself

theorem foldl_insertProduct_integrity (l : List ProductData) (st : InventoryStore)
    (h : indexIntegrity st) : indexIntegrity (l.foldl insertProduct st) := by
  induction l generalizing st with
  | nil => exact h
  | cons p ps ih => exact ih _ (insertProduct_integrity st p h)

theorem foldl_insertProduct_keys (l : List ProductData) (st : InventoryStore)
    (h1 : ∀ p ∈ l, p.id ∉ st.products.map Prod.fst)
    (h2 : (l.map ProductData.id).Nodup) :
    (l.foldl insertProduct st).products.map Prod.fst =
      st.products.map Prod.fst ++ l.map ProductData.id := by
  induction l generalizing st with
  | nil => simp
  | cons p ps ih =>
    simp only [List.map_cons, List.nodup_cons, List.mem_map] at h2
    have hstep : (insertProduct st p).products.map Prod.fst =
        st.products.map Prod.fst ++ [p.id] := by
      rw [insertProduct_products, alSet_keys,
        if_neg (h1 p (List.mem_cons_self p ps))]
    have hrest : ∀ q ∈ ps, q.id ∉ (insertProduct st p).products.map Prod.fst := by
      intro q hq
      rw [hstep]
      intro hmem
      rcases List.mem_append.mp hmem with hmem | hmem
      · exact h1 q (List.mem_cons_of_mem p hq) hmem
      · simp only [List.mem_singleton] at hmem
        exact h2.1 ⟨q, hq, hmem⟩
    rw [List.foldl_cons, ih (insertProduct st p) hrest h2.2, hstep]
    simp

theorem storeInventoryData_products_keys (products : List ProductData) (now : ℕ)
    (h : (products.map ProductData.id).Nodup) :
    (storeInventoryData products now).products.map Prod.fst =
      products.map ProductData.id := by
  have := foldl_insertProduct_keys products emptyStore (by simp [emptyStore]) h
  simpa [storeInventoryData, emptyStore] using this

theorem storeInventoryData_integrity (products : List ProductData) (now : ℕ) :
    indexIntegrity (storeInventoryData products now) := by
  have base : indexIntegrity emptyStore := by
    constructor <;> intro x hx <;> simp [bucketIds, emptyStore] at hx
  have hfold := foldl_insertProduct_integrity products emptyStore base
  exact hfold

/-- Claim-side: the optional field is present and contains `q`
case-insensitively. -/
def optContainsSpec (o : Option String) (q : String) : Prop :=
  ∃ s, o = some s ∧ ciContains s q

instance (o : Option String) (q : String) : Decidable (optContainsSpec o q) :=
  match o with
  | none => isFalse (by rintro ⟨s, hs, _⟩; cases hs)
  | some s => decidable_of_iff (ciContains s q)
      ⟨fun h => ⟨s, rfl, h⟩, by rintro ⟨s', hs', h⟩; cases hs'; exact h⟩

theorem optContains_eq_decide (o : Option String) (q : String) :
    optContains o (lowerStr q) = decide (optContainsSpec o q) := by
  apply bool_eq_decide
  cases o with
  | none =>
    simp only [optContains]
    constructor
    · intro h; cases h
    · rintro ⟨s, hs, _⟩; cases hs
  | some s =>
    simp only [optContains, containsStr_lower_iff]
    constructor
    · intro h; exact ⟨s, rfl, h⟩
    · rintro ⟨s', hs', h⟩; cases hs'; exact h

/-- Claim-side match predicate of the mock filter: title or some tag
contains the query case-insensitively. -/
def mockMatchSpec (query : String) (p : Product) : Prop :=
  ciContains p.title query ∨ ∃ t ∈ p.tags, ciContains t query

instance (query : String) (p : Product) : Decidable (mockMatchSpec query p) := by
  unfold mockMatchSpec; infer_instance

theorem mockPred_eq_decide (query : String) (p : Product) :
    (containsStr (lowerStr p.title) (lowerStr query)
        || p.tags.any fun t => containsStr (lowerStr t) (lowerStr query))
      = decide (mockMatchSpec query p) := by
  apply bool_eq_decide
  simp only [Bool.or_eq_true, List.any_eq_true, containsStr_lower_iff, mockMatchSpec]

/-- Claim-side match predicate of the stored-inventory search: title, a
tag, description, vendor or product type contains the query
case-insensitively. -/
def storedMatchSpec (query : String) (p : ProductData) : Prop :=
  ciContains p.title query ∨ (∃ t ∈ p.tags, ciContains t query) ∨
    optContainsSpec p.description query ∨ optContainsSpec p.vendor query ∨
    optContainsSpec p.productType query

instance (query : String) (p : ProductData) : Decidable (storedMatchSpec query p) := by
  unfold storedMatchSpec; infer_instance

theorem storedMatch_eq_decide (query : String) (p : ProductData) :
    storedMatch (lowerStr query) p = decide (storedMatchSpec query p) := by
  apply bool_eq_decide
  simp only [storedMatch, Bool.or_eq_true, List.any_eq_true, containsStr_lower_iff,
    optContains_eq_decide, decide_eq_true_eq, storedMatchSpec, or_assoc]

/-- The claim-side statement of SearchByText as amended: blank queries
(empty or whitespace-only) list the first 12 stored values, anything else
filters by `storedMatchSpec` on the full untrimmed query, capped at 12. -/
def searchByTextAmendedSpec (st : InventoryStore) (query : String) : List ProductData :=
  if trimStr query = "" then (storeValues st).take 12
  else ((storeValues st).filter fun p => decide (storedMatchSpec query p)).take 12

theorem runPages_fail_none (pagess : List (List BulkNode)) (rest : List PageOutcome)
    (acc : List ProductData) :
    runPages ((pagess.map fun es => PageOutcome.page es true) ++ PageOutcome.fail :: rest)
      acc = none := by
  induction pagess generalizing acc with
  | nil => rfl
  | cons es pss ih =>
    simp only [List.map_cons, List.cons_append, runPages, if_true]
    exact ih _

/-! ## Concrete sample data for scenarios, witnesses and counterexamples -/

/-- Scenario product A: $89.99. -/
def demoProductA : Product :=
  { id := "A", title := "Item A", price := 89.99, image := "", tags := [],
    rating := some 4.6, features := [], colors := [], inventory := 1 }

/-- Scenario product B: $99.00. -/
def demoProductB : Product :=
  { id := "B", title := "Item B", price := 99.0, image := "", tags := [],
    rating := some 4.4, features := [], colors := [], inventory := 1 }

/-- A qualifying product with no rating at all. -/
def unratedProduct : Product :=
  { id := "u1", title := "Mystery Shoe", price := 50, image := "", tags := [],
    rating := none, features := [], colors := [], inventory := 1 }

/-! ## Claims -/

unseal Rat.ofScientific Rat.add Rat.mul Rat.inv Rat.sub in
/-- Claim C3: for every cart mapping and product list, the subtotal is the
sum over cart entries of price × quantity, each id resolved first against
the given list and then against the static mock catalog, unresolved ids
contributing 0; and the scenario cart A×2, B×1 over A=$89.99, B=$99.00
totals $278.98. -/
theorem c3_cart_subtotal :
    (∀ (products : List Product) (cart : Cart),
      computeSubtotal products cart = (cart.map (lineAmount products)).sum) ∧
    computeSubtotal [demoProductA, demoProductB] [("A", 2), ("B", 1)] = 278.98 := by
  constructor
  · intro products cart
    unfold computeSubtotal
    have hbody : (fun (sum : ℚ) (e : String × ℕ) =>
        match resolveId products e.1 with
        | some p => sum + p.price * (e.2 : ℚ)
        | none => sum + 0) = fun sum e => sum + lineAmount products e := by
      funext sum e
      unfold lineAmount
      cases resolveId products e.1 <;> simp
    rw [hbody, foldl_add_eq]
    simp
  · decide

/-- Claim C5: the mock filter on the empty query returns the whole fixed
catalog in order; on a non-empty query it returns exactly the catalog
products whose title or some tag contains the query case-insensitively,
in catalog order. -/
theorem c5_mock_filter :
    mockFetchProducts "" = MOCK_PRODUCTS ∧
    ∀ query : String, query ≠ "" →
      mockFetchProducts query =
        MOCK_PRODUCTS.filter fun p => decide (mockMatchSpec query p) := by
  constructor
  · rfl
  · intro query hq
    unfold mockFetchProducts
    rw [if_neg fun h => hq ((lowerStr_eq_empty_iff query).mp h)]
    exact List.filter_congr fun p _ => mockPred_eq_decide query p

unseal Rat.ofScientific Rat.add Rat.mul Rat.inv Rat.sub in
/-- Witness for C5 at the concrete query "run". -/
theorem c5_witness :
    ("run" ≠ "") ∧
    mockFetchProducts "run" =
      MOCK_PRODUCTS.filter fun p => decide (mockMatchSpec "run" p) :=
  ⟨by decide, c5_mock_filter.2 "run" (by decide)⟩

unseal Rat.ofScientific Rat.add Rat.mul Rat.inv Rat.sub in
/-- Claim C7: the answer heuristic filters to prices ≤ 100, selects the
first product attaining the maximal rating, renders its title, price and
up to two features through the translator (or a fixed nothing-found
sentence), and over the $89.99/$99.00/$79.50 catalog with ratings
4.6/4.4/4.1 it selects the $89.99 product. -/
theorem c7_answer_heuristic :
    (∀ (prompt : String) (products : List Product) (lang : String),
      mockLLMAnswer prompt products lang =
        translate
          (match firstMaxByRating (products.filter fun p => decide (p.price ≤ 100)) with
            | some b => answerSentence b
            | none => nothingFoundSentence) lang) ∧
    (∀ (products : List Product) (m : Product),
      firstMaxByRating (products.filter fun p => decide (p.price ≤ 100)) = some m →
      m.price ≤ 100 ∧
      ∃ l1 l2, products.filter (fun p => decide (p.price ≤ 100)) = l1 ++ m :: l2 ∧
        (∀ q ∈ l1, ratingOf q < ratingOf m) ∧
        ∀ q ∈ products.filter (fun p => decide (p.price ≤ 100)), ratingOf q ≤ ratingOf m) ∧
    bestPick MOCK_PRODUCTS = some mockP1 ∧ mockP1.price = 89.99 ∧
    mockLLMAnswer "show me sneakers" MOCK_PRODUCTS "en" =
      "Best under budget: StrideRunner Sneaker ($89.99). Features: Mesh upper, Cushion midsole." := by
  refine ⟨?_, ?_, by decide, by decide, by decide⟩
  · intro prompt products lang
    simp only [mockLLMAnswer, bestPick_eq_firstMax]
  · intro products m hm
    rcases firstMaxByRating_mem_max _ m hm with ⟨l1, l2, hsplit, hbefore, hall⟩
    have hmem : m ∈ products.filter fun p => decide (p.price ≤ 100) := by
      rw [hsplit]
      exact List.mem_append.mpr (Or.inr (List.mem_cons_self m l2))
    have hprice : m.price ≤ 100 := by
      have := (List.mem_filter.mp hmem).2
      exact of_decide_eq_true this
    exact ⟨hprice, l1, l2, hsplit, hbefore, hall⟩

unseal Rat.ofScientific Rat.add Rat.mul Rat.inv Rat.sub in
/-- Witness for C7's selection part over the mock catalog. -/
theorem c7_witness :
    (firstMaxByRating (MOCK_PRODUCTS.filter fun p => decide (p.price ≤ 100)) = some mockP1) ∧
    (mockP1.price ≤ 100 ∧
      ∃ l1 l2, MOCK_PRODUCTS.filter (fun p => decide (p.price ≤ 100)) = l1 ++ mockP1 :: l2 ∧
        (∀ q ∈ l1, ratingOf q < ratingOf mockP1) ∧
        ∀ q ∈ MOCK_PRODUCTS.filter (fun p => decide (p.price ≤ 100)),
          ratingOf q ≤ ratingOf mockP1) :=
  ⟨by decide, c7_answer_heuristic.2.1 MOCK_PRODUCTS mockP1 (by decide)⟩

/-- Replace a missing rating by an explicit rating of 0 (the default the
heuristic's comparator applies). -/
def withDefaultRating (p : Product) : Product := { p with rating := some (ratingOf p) }

theorem ratingOf_withDefaultRating (p : Product) :
    ratingOf (withDefaultRating p) = ratingOf p := rfl

theorem foldl_champion_map (ps : List Product) (p : Product) :
    (ps.map withDefaultRating).foldl
        (fun b q => if ratingOf b < ratingOf q then q else b) (withDefaultRating p) =
      withDefaultRating
        (ps.foldl (fun b q => if ratingOf b < ratingOf q then q else b) p) := by
  induction ps generalizing p with
  | nil => rfl
  | cons q qs ih =>
    simp only [List.map_cons, List.foldl_cons, ratingOf_withDefaultRating]
    rw [← ih]
    by_cases h : ratingOf p < ratingOf q <;> simp [h]

theorem firstMaxByRating_map (l : List Product) :
    firstMaxByRating (l.map withDefaultRating) =
      (firstMaxByRating l).map withDefaultRating := by
  cases l with
  | nil => rfl
  | cons p ps => simp [firstMaxByRating, foldl_champion_map]

theorem filter_price_map (l : List Product) :
    (l.map withDefaultRating).filter (fun p => decide (p.price ≤ 100)) =
      (l.filter fun p => decide (p.price ≤ 100)).map withDefaultRating := by
  rw [List.filter_map]
  rfl

/-- Claim C10 (implicit): a missing rating is treated as 0 — the selection
over a list equals the selection over the same list with every missing
rating made explicit as 0, and whenever some qualifying product has a
positive effective rating the selected product is rated and positive. -/
theorem c10_missing_rating_zero :
    (∀ products : List Product,
      bestPick (products.map withDefaultRating) =
        (bestPick products).map withDefaultRating) ∧
    (∀ (products : List Product) (q s : Product),
      q ∈ products.filter (fun p => decide (p.price ≤ 100)) → 0 < ratingOf q →
      bestPick products = some s → s.rating ≠ none ∧ 0 < ratingOf s) := by
  constructor
  · intro products
    rw [bestPick_eq_firstMax, bestPick_eq_firstMax, filter_price_map, firstMaxByRating_map]
  · intro products q s hq hpos hs
    rw [bestPick_eq_firstMax] at hs
    rcases firstMaxByRating_mem_max _ s hs with ⟨l1, l2, hsplit, hbefore, hall⟩
    have hle : ratingOf q ≤ ratingOf s := hall q hq
    have hspos : 0 < ratingOf s := lt_of_lt_of_le hpos hle
    refine ⟨?_, hspos⟩
    intro hnone
    rw [ratingOf, hnone] at hspos
    simp at hspos

unseal Rat.ofScientific Rat.add Rat.mul Rat.inv Rat.sub in
/-- Witness for C10: with an unrated cheap product and the rated `mockP3`
in the list, the heuristic picks the rated product. -/
theorem c10_witness :
    (mockP3 ∈ ([unratedProduct, mockP3].filter fun p => decide (p.price ≤ 100)) ∧
      0 < ratingOf mockP3 ∧ bestPick [unratedProduct, mockP3] = some mockP3) ∧
    (mockP3.rating ≠ none ∧ 0 < ratingOf mockP3) :=
  ⟨by decide, c10_missing_rating_zero.2 [unratedProduct, mockP3] mockP3 mockP3
    (by decide) (by decide) (by decide)⟩

/-- Claim C4: the catalog client never surfaces a transport error — with
missing credentials, a thrown network error, a non-ok status, a parse
failure, or a success carrying zero records, its result is exactly the
mock filter applied to the same query. -/
theorem c4_storefront_fallback (query shopDomain storefrontToken : String)
    (outcome : FetchOutcome)
    (h : shopDomain = "" ∨ storefrontToken = "" ∨ outcome = .netError ∨
      outcome = .httpError ∨ outcome = .parseError ∨ outcome = .ok []) :
    fetchStorefrontProducts query shopDomain storefrontToken outcome =
      mockFetchProducts query := by
  unfold fetchStorefrontProducts
  by_cases hc : shopDomain = "" ∨ storefrontToken = ""
  · rw [if_pos hc]
  · rw [if_neg hc]
    rcases h with h | h | h | h | h | h
    · exact absurd (Or.inl h) hc
    · exact absurd (Or.inr h) hc
    · subst h; rfl
    · subst h; rfl
    · subst h; rfl
    · subst h; rfl

unseal Rat.ofScientific Rat.add Rat.mul Rat.inv Rat.sub in
/-- Witness for C4: a non-ok HTTP status with credentials present falls
back to the mock filter. -/
theorem c4_witness :
    (("demo.myshopify.com" : String) = "" ∨ ("tok" : String) = "" ∨
      FetchOutcome.httpError = .netError ∨ FetchOutcome.httpError = .httpError ∨
      FetchOutcome.httpError = .parseError ∨ FetchOutcome.httpError = .ok []) ∧
    fetchStorefrontProducts "run" "demo.myshopify.com" "tok" .httpError =
      mockFetchProducts "run" :=
  ⟨by decide, c4_storefront_fallback "run" "demo.myshopify.com" "tok" .httpError (by decide)⟩

/-- Claim C1: after a rebuild from a list with pairwise-distinct ids, the
reported cache size equals the input length, and every id appearing in any
category-index or tag-index entry resolves in the primary store. -/
theorem c1_rebuild_total (products : List ProductData) (now : ℕ)
    (h : (products.map ProductData.id).Nodup) :
    (getInventoryStats (storeInventoryData products now)).cacheSize = products.length ∧
    (∀ i ∈ bucketIds (storeInventoryData products now).categories,
      (alGet (storeInventoryData products now).products i).isSome) ∧
    (∀ i ∈ bucketIds (storeInventoryData products now).tags,
      (alGet (storeInventoryData products now).products i).isSome) := by
  have hkeys := storeInventoryData_products_keys products now h
  have hint := storeInventoryData_integrity products now
  refine ⟨?_, ?_, ?_⟩
  · have hlen := congrArg List.length hkeys
    simp only [List.length_map] at hlen
    simpa [getInventoryStats] using hlen
  · intro i hi
    rw [alGet_isSome_iff]
    exact hint.1 i hi
  · intro i hi
    rw [alGet_isSome_iff]
    exact hint.2 i hi

/-- A bulk-loaded product record used in C1's witness. -/
def sampleStored1 : ProductData :=
  { id := "p1", title := "Alpha Jacket", price := 120, image := "img1",
    tags := ["outerwear", "warm"], rating := 4.5, features := [], colors := ["Default"],
    inventory := 3, variantId := none, description := some "", vendor := some "",
    productType := some "Jackets", createdAt := some "", updatedAt := some "",
    variants := [], images := [], metafields := [] }

/-- A second bulk-loaded product record used in C1's witness. -/
def sampleStored2 : ProductData :=
  { id := "p2", title := "Beta Scarf", price := 25, image := "img2",
    tags := ["warm"], rating := 4.5, features := [], colors := ["Default"],
    inventory := 8, variantId := none, description := some "", vendor := some "",
    productType := some "", createdAt := some "", updatedAt := some "",
    variants := [], images := [], metafields := [] }

unseal Rat.ofScientific Rat.add Rat.mul Rat.inv Rat.sub in
/-- Witness for C1 on a concrete two-product rebuild. -/
theorem c1_witness :
    ([sampleStored1, sampleStored2].map ProductData.id).Nodup ∧
    ((getInventoryStats (storeInventoryData [sampleStored1, sampleStored2] 0)).cacheSize = 2 ∧
      (∀ i ∈ bucketIds (storeInventoryData [sampleStored1, sampleStored2] 0).categories,
        (alGet (storeInventoryData [sampleStored1, sampleStored2] 0).products i).isSome) ∧
      (∀ i ∈ bucketIds (storeInventoryData [sampleStored1, sampleStored2] 0).tags,
        (alGet (storeInventoryData [sampleStored1, sampleStored2] 0).products i).isSome)) :=
  ⟨by decide, c1_rebuild_total [sampleStored1, sampleStored2] 0 (by decide)⟩

/-- Claim C2 (amended): a mid-pagination failure makes the bulk loader
return the empty list, discarding the records accumulated from the pages
already received. -/
theorem c2_failure_returns_empty (shopDomain storefrontToken : String)
    (hd : shopDomain ≠ "") (ht : storefrontToken ≠ "")
    (pagess : List (List BulkNode)) (rest : List PageOutcome) :
    fetchAllShopifyProducts shopDomain storefrontToken
      ((pagess.map fun es => PageOutcome.page es true) ++ PageOutcome.fail :: rest) = [] := by
  unfold fetchAllShopifyProducts
  rw [if_neg (by rintro (h | h); exacts [hd h, ht h]), runPages_fail_none]

/-- A bulk node received on a successful page before the failure. -/
def sampleBulkNode : BulkNode :=
  { id := "gid://shopify/Product/9", title := "Bulk Tee", tags := some ["tee"],
    totalInventory := some 5, imageUrls := ["https://example.com/tee.png"],
    variants := [{ id := "v9", amount := some 19.99 }] }

unseal Rat.ofScientific Rat.add Rat.mul Rat.inv Rat.sub in
/-- Counterexample to C2 as stated: after one successful page holding a
record, a failing second request yields `[]`, not the accumulated record. -/
theorem c2_counterexample :
    fetchAllShopifyProducts "demo.myshopify.com" "token"
      [PageOutcome.page [sampleBulkNode] true, PageOutcome.fail] = [] ∧
    [sampleBulkNode].map bulkNodeToProduct ≠ [] := by
  decide

/-- Witness for the amended C2 at a concrete one-page-then-failure run. -/
theorem c2_witness :
    (("demo.myshopify.com" : String) ≠ "" ∧ ("token" : String) ≠ "") ∧
    fetchAllShopifyProducts "demo.myshopify.com" "token"
      (([[sampleBulkNode]].map fun es => PageOutcome.page es true) ++
        PageOutcome.fail :: []) = [] :=
  ⟨by decide, c2_failure_returns_empty "demo.myshopify.com" "token"
    (by decide) (by decide) [[sampleBulkNode]] []⟩

/-- A stored product with no whitespace in any searchable field. -/
def shoeProduct : ProductData :=
  { id := "s1", title := "Shoe", price := 10, image := "", tags := [], rating := 4,
    features := [], colors := [], inventory := 1, variantId := none, description := none,
    vendor := none, productType := none, createdAt := none, updatedAt := none,
    variants := [], images := [], metafields := [] }

unseal Rat.ofScientific Rat.add Rat.mul Rat.inv Rat.sub in
/-- Counterexample to C6 as stated: the whitespace-only query `" "` is
non-empty, yet the search returns the stored product even though `" "` is
a substring of none of its searchable fields. -/
theorem c6_counterexample :
    searchStoredInventory (storeInventoryData [shoeProduct] 0) " " = [shoeProduct] ∧
    storedMatch (lowerStr " ") shoeProduct = false := by
  decide

/-- Claim C6 (amended): a query that is blank after trimming returns the
first 12 stored entries in store order; any other query returns the first
12 products some searchable field of which contains the full untrimmed
query case-insensitively; the result never exceeds 12 entries. -/
theorem c6_search_amended :
    (∀ (st : InventoryStore) (query : String),
      searchStoredInventory st query = searchByTextAmendedSpec st query) ∧
    ∀ (st : InventoryStore) (query : String),
      (searchStoredInventory st query).length ≤ 12 := by
  constructor
  · intro st query
    unfold searchStoredInventory searchByTextAmendedSpec
    by_cases h : trimStr query = ""
    · rw [if_pos h, if_pos h]
    · rw [if_neg h, if_neg h]
      show List.take 12 ((storeValues st).filter (storedMatch (lowerStr query))) =
        List.take 12 ((storeValues st).filter fun p => decide (storedMatchSpec query p))
      congr 1
      exact List.filter_congr fun p _ => storedMatch_eq_decide query p
  · intro st query
    unfold searchStoredInventory
    split
    · exact List.length_take_le 12 (storeValues st)
    · exact List.length_take_le 12 _

/-- Claim C8: an unparsable completion body yields the degraded
recommendation — empty primary items, total cost 0, no alternatives, one
retry-suggesting tip — returned as a success, not an error. -/
theorem c8_degraded_on_parse_failure (q : String) (hq : q ≠ "") (ps : List ReqProduct) :
    outfitPOST true (some q) (some ps) (.content none) =
      .ok q degradedRecommendations ps.length ∧
    degradedRecommendations.primaryOutfit.items = [] ∧
    degradedRecommendations.primaryOutfit.totalCost = 0 ∧
    degradedRecommendations.alternativeOutfits = [] ∧
    degradedRecommendations.stylingTips =
      ["Try different search terms for better recommendations"] := by
  refine ⟨?_, rfl, rfl, rfl, rfl⟩
  unfold outfitPOST
  simp [hq]

unseal Rat.ofScientific Rat.add Rat.mul Rat.inv Rat.sub in
/-- Witness for C8 at a concrete request. -/
theorem c8_witness :
    (("dress me" : String) ≠ "") ∧
    outfitPOST true (some "dress me") (some []) (.content none) =
      .ok "dress me" degradedRecommendations 0 :=
  ⟨by decide, (c8_degraded_on_parse_failure "dress me" (by decide) []).1⟩

/-- A request product with negative remote inventory. -/
def negativeInventoryProduct : ReqProduct :=
  { id := "p-neg", title := "Backorder Boot", price := 120, tags := [],
    inventory := some (-3), image := "" }

/-- A request product with zero inventory. -/
def zeroInventoryProduct : ReqProduct :=
  { id := "p-zero", title := "Sold Out Sandal", price := 30, tags := [],
    inventory := some 0, image := "" }

unseal Rat.ofScientific Rat.add Rat.mul Rat.inv Rat.sub in
/-- Counterexample to C9 as stated: a product with negative inventory is
packaged with `inStock = false`, so the flag is not always true. -/
theorem c9_counterexample :
    (productSummary negativeInventoryProduct).inStock = false := by
  decide

/-- Claim C9 (amended): the condensed summary's in-stock flag is the
non-negativity of the inventory after the JS falsy default (absent or 0
becomes 0) — true for every zero, absent or non-negative inventory, false
exactly for negative inventory. -/
theorem c9_instock_amended (p : ReqProduct) :
    (productSummary p).inStock = true ↔ 0 ≤ jsOrInt p.inventory 0 := by
  simp [productSummary]

unseal Rat.ofScientific Rat.add Rat.mul Rat.inv Rat.sub in
/-- Witness for the amended C9: zero inventory is marked in stock. -/
theorem c9_witness : (productSummary zeroInventoryProduct).inStock = true :=
  (c9_instock_amended zeroInventoryProduct).mpr (by decide)

end Shopstream
